import Mathlib

/-!
Shallow embedding of the conversation-context manager and the agent turn
loop of the Oss-Dev repository (src/context/manager.py and
src/agent/agent.py), together with proofs of the spec claims about them.

Conventions of the embedding:
* Python strings are Lean `String`; Python truthiness of a string is the
  test against `""`, truthiness of an optional object is `Option.isSome`.
* `count_tokens(text, model_name)` lives in `utils/text.py`, which only
  selects a model-specific tokenizer; the whole development is
  parameterised over an arbitrary token counter `ct : String -> Nat`.
* `datetime.now()` is only ever tested for truthiness (`pruned_at`), so it
  is modelled as a `Bool` (`false` = `None`).
* Mutation of the message list is modelled by explicit state passing: each
  operation returns the updated `ContextManager` (and its Python return
  value where there is one).
-/

namespace OssDev

/-- `client.response.TokenUsage`: running token counters. -/
structure TokenUsage where
  prompt_tokens : Nat := 0
  completion_tokens : Nat := 0
  total_tokens : Nat := 0
deriving DecidableEq, Repr, Inhabited

/-- `usage + usage` as used by `total_usage += usage`. -/
def TokenUsage.add (a b : TokenUsage) : TokenUsage :=
  { prompt_tokens := a.prompt_tokens + b.prompt_tokens
    completion_tokens := a.completion_tokens + b.completion_tokens
    total_tokens := a.total_tokens + b.total_tokens }

/-- One entry of an assistant message's `tool_calls` list. In the source it
is a dict `{id, type: "function", function: {name, arguments}}`; the
constant `type` field is dropped, and `id` is optional because the
validator guards on `"id" in tc`. -/
structure ToolCallEntry where
  id : Option String := none
  fname : String := ""
  arguments : String := ""
deriving DecidableEq, Repr, Inhabited

/-- `context.manager.MessageItem`. -/
structure MessageItem where
  role : String
  content : String
  tool_call_id : Option String := none
  tool_calls : List ToolCallEntry := []
  token_count : Option Nat := none
  pruned_at : Bool := false
deriving DecidableEq, Repr, Inhabited

/-- `MessageItem.to_dict()` output: the wire message sent to the LLM.
`tool_call_id` and `tool_calls` are optional fields on the wire; an absent
`tool_calls` field is modelled by the empty list (the source omits the key
exactly when the list is empty). -/
structure WireMessage where
  role : String
  tool_call_id : Option String := none
  tool_calls : List ToolCallEntry := []
  content : String
deriving DecidableEq, Repr, Inhabited

/-- `MessageItem.to_dict()`: `tool_call_id` is included only when truthy
(non-`None` and non-empty), `tool_calls` only when non-empty, and `content`
is always present. -/
def MessageItem.to_dict (m : MessageItem) : WireMessage :=
  { role := m.role
    tool_call_id := match m.tool_call_id with
      | some s => if s = "" then none else some s
      | none => none
    tool_calls := m.tool_calls
    content := m.content }

/-- Modelled from the spec: `tools.base.ToolResult` (the file
`tools/base.py` is not part of the staged sources; the spec gives it
`success: bool`, `output: str`, optional `error: str`). -/
structure ToolResult where
  success : Bool
  output : String
  error : String := ""
deriving DecidableEq, Repr, Inhabited

/-- Modelled from the spec: `ToolResult.error_result(error=..., output=...)`
builds a failed result. -/
def ToolResult.error_result (error : String) (output : String) : ToolResult :=
  { success := false, output := output, error := error }

/-- Modelled from the spec: `ToolResult.to_model_output()` is "a method
producing model-facing text"; for a failed result the spec reports the
error text as the message content (for a synthesized gap-fill the content
is "Tool call was not processed"). -/
def ToolResult.to_model_output (r : ToolResult) : String :=
  if r.success then r.output else r.error

/-- `context.manager.ContextManager` state: the system prompt (prepended at
read time, and tested for truthiness), the mutable message list, the model
configuration bits the manager reads (`config.model.context_window`), and
the two usage counters. -/
structure ContextManager where
  system_prompt : String := ""
  context_window : Nat := 0
  messages : List MessageItem := []
  latest_usage : TokenUsage := {}
  total_usage : TokenUsage := {}
deriving DecidableEq, Repr, Inhabited

namespace ContextManager

/-- `ContextManager.PRUNE_PROTECT_TOKENS`. -/
def PRUNE_PROTECT_TOKENS : Nat := 40000

/-- `ContextManager.PRUNE_MINIMUM_TOKENS`. -/
def PRUNE_MINIMUM_TOKENS : Nat := 20000

/-- `ContextManager.message_count`. -/
def message_count (s : ContextManager) : Nat := s.messages.length

/-- `ContextManager.add_user_message`. -/
def add_user_message (ct : String → Nat) (s : ContextManager)
    (content : String) : ContextManager :=
  { s with messages := s.messages ++
      [{ role := "user", content := content, token_count := some (ct content) }] }

/-- `ContextManager.add_assistant_message`: `content or ""` stores the
empty string for `None` (and for `""` itself), `tool_calls or []` likewise. -/
def add_assistant_message (ct : String → Nat) (s : ContextManager)
    (content : Option String) (tool_calls : Option (List ToolCallEntry)) :
    ContextManager :=
  let stored := content.getD ""
  { s with messages := s.messages ++
      [{ role := "assistant", content := stored,
         token_count := some (ct stored),
         tool_calls := tool_calls.getD [] }] }

/-- `ContextManager.add_tool_result`: with `insert_after_assistant_index`
given, the item is inserted after that index, past any tool-role messages
already sitting there; otherwise it is appended. (The Python `content`
coercion to `str` is the identity here: contents are already strings.) -/
def add_tool_result (ct : String → Nat) (s : ContextManager)
    (tool_call_id : String) (content : String)
    (insert_after_assistant_index : Option Nat) : ContextManager :=
  let item : MessageItem :=
    { role := "tool", content := content, tool_call_id := some tool_call_id,
      token_count := some (ct content) }
  match insert_after_assistant_index with
  | none => { s with messages := s.messages ++ [item] }
  | some idx =>
      let before := s.messages.take (idx + 1)
      let after := s.messages.drop (idx + 1)
      { s with messages :=
          before ++ after.takeWhile (fun m => m.role = "tool") ++ [item] ++
            after.dropWhile (fun m => m.role = "tool") }

/-- The ids collected from an assistant message's `tool_calls` by the
validator (`tool_call_ids` set): entries that carry an `"id"` key, in
first-occurrence order (the Python set has no specified order; its
iteration order is fixed here as first occurrence). -/
def collectIds (tcs : List ToolCallEntry) : List String :=
  (tcs.filterMap (fun tc => tc.id)).dedup

/-- The ids found by the validator in the contiguous block of tool messages
immediately following an assistant message (`found_tool_result_ids`): only
truthy (non-empty) `tool_call_id`s are recorded. -/
def foundIds (rest : List MessageItem) : List String :=
  ((rest.takeWhile (fun m => m.role = "tool")).filterMap
    (fun m => m.tool_call_id)).filter (fun id => id ≠ "")

/-- The content of a synthesized gap-fill error result
(`ToolResult.error_result(error="Tool call was not processed", output="")`
rendered through `to_model_output`). -/
def missingContent : String :=
  (ToolResult.error_result "Tool call was not processed" "").to_model_output

/-- The tool message the validator inserts for a missing tool-call id. -/
def missingItem (ct : String → Nat) (id : String) : MessageItem :=
  { role := "tool", content := missingContent, tool_call_id := some id,
    token_count := some (ct missingContent) }

/-- `ContextManager._validate_message_history`: walk the list; at every
assistant message with `tool_calls`, the ids lacking a result in the
contiguous tool block that follows are filled with synthesized error
results inserted directly after the assistant message (`insert_position =
i + 1`, before the existing tool results). The scan then continues just
past the inserted items, i.e. with the original tail. An empty
`tool_call_ids` set skips the check, which coincides with filtering an
empty list. -/
def validateFrom (ct : String → Nat) : List MessageItem → List MessageItem
  | [] => []
  | m :: rest =>
      if m.role = "assistant" ∧ m.tool_calls ≠ [] then
        let missing := (collectIds m.tool_calls).filter
          (fun id => id ∉ foundIds rest)
        m :: (missing.map (missingItem ct) ++ validateFrom ct rest)
      else
        m :: validateFrom ct rest

/-- `ContextManager.get_messages`: runs the validation pass (mutating the
stored list), then returns the wire messages, system prompt first when it
is truthy. Returns the updated manager together with the wire list. -/
def get_messages (ct : String → Nat) (s : ContextManager) :
    ContextManager × List WireMessage :=
  let validated := validateFrom ct s.messages
  let sysPart : List WireMessage :=
    if s.system_prompt = "" then []
    else [{ role := "system", content := s.system_prompt }]
  ({ s with messages := validated },
   sysPart ++ validated.map MessageItem.to_dict)

/-- `ContextManager.needs_compression`: `total_tokens > context_window *
0.8`, written over naturals as `10 * total > 8 * window` (exact rational
semantics of the float comparison). -/
def needs_compression (s : ContextManager) : Bool :=
  10 * s.latest_usage.total_tokens > 8 * s.context_window

/-- `ContextManager.set_latest_usage`. -/
def set_latest_usage (s : ContextManager) (usage : TokenUsage) : ContextManager :=
  { s with latest_usage := usage }

/-- `ContextManager.add_usage`. -/
def add_usage (s : ContextManager) (usage : TokenUsage) : ContextManager :=
  { s with total_usage := s.total_usage.add usage }

/-- The f-string `continuation_content` of `replace_with_summary`, with the
summary interpolated in the middle (the source's triple-quoted literal
keeps the 8-space indentation of its continuation lines). -/
def continuationContent (summary : String) : String :=
  "# Context Restoration (Previous Session Compacted)\n\n" ++
  "        The previous conversation was compacted due to context length limits. Below is a detailed summary of the work done so far. \n\n" ++
  "        **CRITICAL: Actions listed under \"COMPLETED ACTIONS\" are already done. DO NOT repeat them.**\n\n" ++
  "        ---\n\n        " ++ summary ++ "\n\n        ---\n\n" ++
  "        Resume work from where we left off. Focus ONLY on the remaining tasks."

/-- The assistant acknowledgment text of `replace_with_summary`. -/
def ackContent : String :=
  "I've reviewed the context from the previous session. I understand:\n" ++
  "- The original goal and what was requested\n" ++
  "- Which actions are ALREADY COMPLETED (I will NOT repeat these)\n" ++
  "- The current state of the project\n" ++
  "- What still needs to be done\n\n" ++
  "I'll continue with the REMAINING tasks only, starting from where we left off."

/-- The final user instruction of `replace_with_summary`. -/
def continueContent : String :=
  "Continue with the REMAINING work only. Do NOT repeat any completed actions. " ++
  "Proceed with the next step as described in the context above."

/-- `ContextManager.replace_with_summary`: the transcript is reset to
exactly three synthetic messages. -/
def replace_with_summary (ct : String → Nat) (s : ContextManager)
    (summary : String) : ContextManager :=
  { s with messages :=
      [{ role := "user", content := continuationContent summary,
         token_count := some (ct (continuationContent summary)) },
       { role := "assistant", content := ackContent,
         token_count := some (ct ackContent) },
       { role := "user", content := continueContent,
         token_count := some (ct continueContent) }] }

/-- The effective token count of a message inside `prune_tool_outputs`:
`msg.token_count or count_tokens(msg.content, ...)` — a cached `0` is falsy
and recomputed, like `None`. -/
def effTokens (ct : String → Nat) (m : MessageItem) : Nat :=
  match m.token_count with
  | some n => if n = 0 then ct m.content else n
  | none => ct m.content

/-- Whether `prune_tool_outputs` considers a message at all:
`msg.role == "tool" and msg.tool_call_id` (truthy id). -/
def prunable (m : MessageItem) : Bool :=
  m.role = "tool" && (match m.tool_call_id with
    | some id => id ≠ ""
    | none => false)

/-- The placeholder written into a pruned tool result. -/
def prunedPlaceholder : String := "[Old tool result content cleared]"

/-- The in-place mutation applied to a message marked for pruning. -/
def pruneMsg (ct : String → Nat) (m : MessageItem) : MessageItem :=
  { m with content := prunedPlaceholder,
           token_count := some (ct prunedPlaceholder),
           pruned_at := true }

/-- The scan of `prune_tool_outputs` over the reversed message list
(newest first), carrying the running `total_tokens`. Returns
`(pruned_tokens, pruned_count, transformed reversed list)`: the transformed
list applies `pruneMsg` exactly to the messages the source collects in
`to_prune`, and the scan breaks at the first already-pruned tool message,
leaving everything older untouched. -/
def pruneScanRev (ct : String → Nat) :
    List MessageItem → Nat → Nat × Nat × List MessageItem
  | [], _ => (0, 0, [])
  | m :: rest, total =>
      if prunable m then
        if m.pruned_at then (0, 0, m :: rest)
        else
          let t := effTokens ct m
          let r := pruneScanRev ct rest (total + t)
          if total + t > PRUNE_PROTECT_TOKENS then
            (r.1 + t, r.2.1 + 1, pruneMsg ct m :: r.2.2)
          else (r.1, r.2.1, m :: r.2.2)
      else
        let r := pruneScanRev ct rest total
        (r.1, r.2.1, m :: r.2.2)

/-- The number of user-role messages in the transcript. -/
def userCount (s : ContextManager) : Nat :=
  (s.messages.filter (fun m => m.role = "user")).length

/-- `ContextManager.prune_tool_outputs`: returns the updated manager and
the pruned-message count the Python method returns. Nothing happens with
fewer than two user messages, and the collected prune is only committed
when it reclaims at least `PRUNE_MINIMUM_TOKENS`. -/
def prune_tool_outputs (ct : String → Nat) (s : ContextManager) :
    ContextManager × Nat :=
  if userCount s < 2 then (s, 0)
  else
    let r := pruneScanRev ct s.messages.reverse 0
    if r.1 < PRUNE_MINIMUM_TOKENS then (s, 0)
    else ({ s with messages := r.2.2.reverse }, r.2.1)

/-- `ContextManager.clear`. -/
def clear (s : ContextManager) : ContextManager := { s with messages := [] }

end ContextManager

/-! ## The agent turn loop (`src/agent/agent.py`, `Agent._agentic_loop`)

The external collaborators (chat client stream, tool registry, chat
compactor, loop detector, argument parser, loop-breaker prompt) are not
part of the staged sources; they are modelled as components of an
`AgentEnv` of pure functions, exactly as the spec describes their
contracts. The stream produced by the chat client for the request of turn
`k` is `env.stream k` (the client is an external source of events; the
loop only consumes the typed stream). -/

/-- `client.response.ToolCall`: one complete tool call from the stream. -/
structure ToolCall where
  call_id : String
  name : String
  arguments : String
deriving DecidableEq, Repr, Inhabited

/-- `client.response.StreamEventType` together with its payload: the typed
events of the chat-completion stream. `error` carries an optional message
(`event.error or "Unknown error occurred."` treats `None` and `""` alike,
modelled by `Option`). -/
inductive StreamEvent where
  | textDelta (content : String)
  | toolCallStart
  | toolCallComplete (tc : ToolCall)
  | error (msg : Option String)
  | messageComplete (usage : TokenUsage)
deriving DecidableEq, Repr, Inhabited

/-- `client.response.ToolResultMessage` as built by the loop. -/
structure ToolResultMessage where
  tool_call_id : String
  content : String
  is_error : Bool
deriving DecidableEq, Repr, Inhabited

/-- `agent.events.AgentEvent`: the consumer-facing events the loop yields
(`agent_start`/`agent_end` belong to `run`, not to the loop). -/
inductive AgentEvent where
  | textDelta (content : String)
  | textComplete (content : String)
  | toolCallStart (id : String) (name : String) (args : String)
  | toolCallComplete (id : String) (name : String) (result : ToolResult)
  | agentError (message : String)
deriving DecidableEq, Repr, Inhabited

/-- A loop-detector record (`record_action("response", text=...)` or
`record_action("tool_call", tool_name=..., args=...)`). -/
inductive AgentAction where
  | response (text : String)
  | toolCall (name : String) (args : String)
deriving DecidableEq, Repr, Inhabited

/-- The external collaborators of the loop, as pure functions. `invoke`
returns `Except.error e` when the registry raises an exception whose
`str(e)` is `e`; `compress` is the chat compactor (a falsy summary is
`none`); `checkLoop` is the loop detector's `check_for_loop` over the
recorded action log; `parseArgs` is `parse_tool_call_arguments` (total: it
falls back to empty args rather than raising); `loopBreakerPrompt` is
`prompts.system.create_loop_breaker_prompt`; `ct` is the token counter. -/
structure AgentEnv where
  stream : Nat → List StreamEvent
  invoke : String → String → Except String ToolResult
  compress : ContextManager → Option String × TokenUsage
  checkLoop : List AgentAction → Option String
  parseArgs : String → String
  loopBreakerPrompt : String → String
  ct : String → Nat

/-- The loop-visible state: the context manager, the session turn counter
(`session.increment_turn`), the loop-detector action log, and the events
yielded so far (the async generator's output, accumulated). -/
structure AgentSt where
  cm : ContextManager
  turnCount : Nat := 0
  actions : List AgentAction := []
  events : List AgentEvent := []
deriving Repr, Inhabited

/-- The accumulator of the stream-consumption phase (steps 64-82 of
`_agentic_loop`): the concatenated `response_text`, the collected
`tool_calls`, the final `usage`, and the events yielded while streaming. -/
structure StreamAcc where
  response_text : String := ""
  tool_calls : List ToolCall := []
  usage : Option TokenUsage := none
  events : List AgentEvent := []
deriving DecidableEq, Repr, Inhabited

/-- One step of the stream loop: text deltas are appended and forwarded;
`TOOL_CALL_START` is deliberately not forwarded; complete tool calls
accumulate; stream errors are forwarded as agent errors (with the fallback
text); `MESSAGE_COMPLETE` records usage. -/
def streamStep (acc : StreamAcc) : StreamEvent → StreamAcc
  | .textDelta c =>
      { acc with response_text := acc.response_text ++ c,
                 events := acc.events ++ [AgentEvent.textDelta c] }
  | .toolCallStart => acc
  | .toolCallComplete tc => { acc with tool_calls := acc.tool_calls ++ [tc] }
  | .error msg =>
      { acc with events := acc.events ++
          [AgentEvent.agentError (msg.getD "Unknown error occurred.")] }
  | .messageComplete u => { acc with usage := some u }

/-- The whole stream-consumption phase. -/
def streamPhase (events : List StreamEvent) : StreamAcc :=
  events.foldl streamStep {}

/-- The tool calls a turn extracts from its stream. -/
def extractToolCalls (events : List StreamEvent) : List ToolCall :=
  (streamPhase events).tool_calls

/-- Content of the error result synthesized for a tool call without a name
(`ToolResult.error_result(error="Tool call missing name", output="")`). -/
def missingNameContent : String :=
  (ToolResult.error_result "Tool call missing name" "").to_model_output

/-- The result a named tool call produces: a successful registry dispatch
returns its result; a raised exception `e` is caught and converted to
`ToolResult.error_result(error=f"Tool execution failed: {str(e)}")`. -/
def dispatchResult (env : AgentEnv) (tc : ToolCall) : ToolResult :=
  match env.invoke tc.name (env.parseArgs tc.arguments) with
  | .ok r => r
  | .error e => ToolResult.error_result ("Tool execution failed: " ++ e) ""

/-- The outcome of dispatching one turn's tool calls (steps 124-187):
the events yielded, the accumulated `tool_call_results`, the loop-detector
records, and — as a pure observation of the registry — the list of
`(name, args)` invocations actually made. -/
structure DispatchOut where
  events : List AgentEvent := []
  results : List ToolResultMessage := []
  actions : List AgentAction := []
  invoked : List (String × String) := []
deriving DecidableEq, Repr, Inhabited

/-- Dispatch of the turn's tool calls, in request order. A call without a
name gets a synthesized error result and nothing else (no event, no
loop-detector record, no registry invocation); a named call yields a
tool-call-start event (with parsed arguments), is recorded, dispatched,
and yields a tool-call-complete event, its result message flagged
`is_error` iff the result did not succeed. -/
def dispatchCalls (env : AgentEnv) : List ToolCall → DispatchOut
  | [] => {}
  | tc :: rest =>
      if tc.name = "" then
        let d := dispatchCalls env rest
        { d with results :=
            { tool_call_id := tc.call_id, content := missingNameContent,
              is_error := true } :: d.results }
      else
        let args := env.parseArgs tc.arguments
        let result := dispatchResult env tc
        let d := dispatchCalls env rest
        { events := AgentEvent.toolCallStart tc.call_id tc.name args ::
            AgentEvent.toolCallComplete tc.call_id tc.name result :: d.events
          results := { tool_call_id := tc.call_id,
                       content := result.to_model_output,
                       is_error := !result.success } :: d.results
          actions := AgentAction.toolCall tc.name args :: d.actions
          invoked := (tc.name, args) :: d.invoked }

/-- `if usage: set_latest_usage(usage); add_usage(usage)`. -/
def recordUsage (usage : Option TokenUsage) (cm : ContextManager) :
    ContextManager :=
  match usage with
  | some u => (cm.set_latest_usage u).add_usage u
  | none => cm

/-- The compression step at the top of each turn (lines 45-53): when the
latest usage exceeds 80% of the window, the compactor runs; a truthy
summary replaces the transcript and records the compactor's usage. -/
def compressStep (env : AgentEnv) (cm : ContextManager) : ContextManager :=
  if cm.needs_compression then
    match env.compress cm with
    | (some summary, usage) =>
        ((cm.replace_with_summary env.ct summary).set_latest_usage usage).add_usage
          usage
    | (none, _) => cm
  else cm

/-- One full turn of `_agentic_loop` (the body of `for turn_num in
range(max_turns)`). Returns the state after the turn and `true` exactly
when the turn hit the early `return` (no tool calls requested). -/
def runTurn (env : AgentEnv) (turnNum : Nat) (st : AgentSt) : AgentSt × Bool :=
  let cm1 := compressStep env st.cm
  let sp := streamPhase (env.stream turnNum)
  let assistantIndex := cm1.message_count
  let cm2 := cm1.add_assistant_message env.ct
    (if sp.response_text = "" then none else some sp.response_text)
    (if sp.tool_calls = [] then none
     else some (sp.tool_calls.map (fun tc =>
       { id := some tc.call_id, fname := tc.name, arguments := tc.arguments })))
  let evs1 := st.events ++ sp.events ++
    (if sp.response_text = "" then []
     else [AgentEvent.textComplete sp.response_text])
  let acts1 := st.actions ++
    (if sp.response_text = "" then []
     else [AgentAction.response sp.response_text])
  if sp.tool_calls = [] then
    let cm3 := recordUsage sp.usage cm2
    let cm4 := (cm3.prune_tool_outputs env.ct).1
    ({ cm := cm4, turnCount := st.turnCount + 1, actions := acts1,
       events := evs1 }, true)
  else
    let d := dispatchCalls env sp.tool_calls
    let cm3 := d.results.foldl
      (fun c r => c.add_tool_result env.ct r.tool_call_id r.content
        (some assistantIndex)) cm2
    -- the defensive gap check of lines 200-214: set difference between the
    -- assistant ids and the resulted ids (first-occurrence order)
    let missing := ((sp.tool_calls.map (fun tc => tc.call_id)).dedup).filter
      (fun id => id ∉ d.results.map (fun r => r.tool_call_id))
    let cm4 := missing.foldl
      (fun c id => c.add_tool_result env.ct id ContextManager.missingContent
        (some assistantIndex)) cm3
    let acts2 := acts1 ++ d.actions
    let cm5 := match env.checkLoop acts2 with
      | some diagnosis =>
          cm4.add_user_message env.ct (env.loopBreakerPrompt diagnosis)
      | none => cm4
    let cm6 := recordUsage sp.usage cm5
    let cm7 := (cm6.prune_tool_outputs env.ct).1
    ({ cm := cm7, turnCount := st.turnCount + 1, actions := acts2,
       events := evs1 ++ d.events }, false)

/-- The terminal agent-error message `f"Maximum turns ({max_turns}) reached"`. -/
def maxTurnsMessage (maxTurns : Nat) : String :=
  "Maximum turns (" ++ toString maxTurns ++ ") reached"

/-- The turn loop, recursing on the remaining turn budget while carrying
the current `turn_num`. Exhausting the budget falls out of the `for` and
yields the max-turns agent-error event; an early `return` ends the loop
without it. -/
def loopAux (env : AgentEnv) (maxTurns : Nat) :
    Nat → Nat → AgentSt → AgentSt
  | 0, _, st =>
      { st with events := st.events ++
          [AgentEvent.agentError (maxTurnsMessage maxTurns)] }
  | remaining + 1, turnNum, st =>
      let r := runTurn env turnNum st
      if r.2 then r.1 else loopAux env maxTurns remaining (turnNum + 1) r.1

/-- `Agent._agentic_loop`: `max_turns` turns starting at `turn_num = 0`. -/
def agenticLoop (env : AgentEnv) (maxTurns : Nat) (st : AgentSt) : AgentSt :=
  loopAux env maxTurns maxTurns 0 st

/-! ## Claim-level predicates and concrete scenarios -/

/-- The ordering property exactly as claimed: every assistant message
carrying `tool_calls` is immediately followed (contiguously, before any
message of any other role) by exactly one tool-role message per call id of
that assistant message. Checked recursively along the wire list. -/
def wireExactlyOne : List WireMessage → Bool
  | [] => true
  | m :: rest =>
      (if m.role = "assistant" ∧ m.tool_calls ≠ [] then
        (ContextManager.collectIds m.tool_calls).all (fun id =>
          ((rest.takeWhile (fun w => w.role = "tool")).countP
            (fun t => t.tool_call_id == some id)) == 1)
      else true) &&
      wireExactlyOne rest

/-- The ordering property the validator actually establishes: every
assistant message with `tool_calls` is immediately followed (contiguously,
before any message of any other role) by at least one tool-role message per
truthy (non-empty) call id. -/
def WireAtLeastOne : List WireMessage → Prop
  | [] => True
  | m :: rest =>
      (m.role = "assistant" → ∀ id ∈ ContextManager.collectIds m.tool_calls,
        id ≠ "" →
        ∃ t ∈ rest.takeWhile (fun w => w.role = "tool"),
          t.tool_call_id = some id) ∧
      WireAtLeastOne rest

/-- The same property on the internal message list, phrased through the
validator's own `foundIds` scan. -/
def ItemAtLeastOne : List MessageItem → Prop
  | [] => True
  | m :: rest =>
      (m.role = "assistant" → ∀ id ∈ ContextManager.collectIds m.tool_calls,
        id ≠ "" → id ∈ ContextManager.foundIds rest) ∧
      ItemAtLeastOne rest

/-- A concrete token counter for the closed scenarios. -/
def ct0 : String → Nat := String.length

/-- C2 scenario: an assistant message with tool calls `[a, b, c]`, manually
inserted results for `a` and `c` only, then a later user message. -/
def gapScenario : ContextManager :=
  ((((({} : ContextManager).add_assistant_message ct0 (some "")
      (some [{ id := some "a", fname := "t1", arguments := "{}" },
             { id := some "b", fname := "t2", arguments := "{}" },
             { id := some "c", fname := "t3", arguments := "{}" }])).add_tool_result
      ct0 "a" "ra" none).add_tool_result ct0 "c" "rc" none).add_user_message
      ct0 "next")

/-- C1 counterexample scenario: two results added for the same call id. -/
def dupScenario : ContextManager :=
  ((({} : ContextManager).add_assistant_message ct0 (some "")
      (some [{ id := some "a", fname := "t", arguments := "{}" }])).add_tool_result
      ct0 "a" "r1" none).add_tool_result ct0 "a" "r2" none

/-- C10 counterexample scenario: an assistant tool call whose id is the
empty string (truthiness defeats the validator's found-id bookkeeping). -/
def emptyIdScenario : ContextManager :=
  ({} : ContextManager).add_assistant_message ct0 (some "")
    (some [{ id := some "", fname := "t", arguments := "{}" }])

/-- A tool-result message with a cached token count, for the pruning
scenarios. -/
def toolMsg (tokens : Nat) (id : String) : MessageItem :=
  { role := "tool", content := "x", tool_call_id := some id,
    token_count := some tokens }

/-- A user message with a cached token count. -/
def userMsg (content : String) : MessageItem :=
  { role := "user", content := content, token_count := some 2 }

/-- C6 scenario A: scanning newest-to-oldest, 35000 tokens stay inside the
40000-token protected window and only 15000 tokens lie beyond it. -/
def pruneScenarioA : ContextManager :=
  { messages := [userMsg "q1", toolMsg 5000 "t3", toolMsg 10000 "t2",
                 toolMsg 35000 "t1", userMsg "q2"] }

/-- C6 scenario B: 25000 tokens lie beyond the protected window. -/
def pruneScenarioB : ContextManager :=
  { messages := [userMsg "q1", toolMsg 15000 "t3", toolMsg 10000 "t2",
                 toolMsg 35000 "t1", userMsg "q2"] }

/-- A benign environment: the model requests one `git_status` call every
turn and the registry succeeds. -/
def envW : AgentEnv :=
  { stream := fun _ =>
      [StreamEvent.toolCallComplete
        { call_id := "id1", name := "git_status", arguments := "{}" }]
    invoke := fun _ _ => .ok { success := true, output := "clean" }
    compress := fun _ => (none, {})
    checkLoop := fun _ => none
    parseArgs := id
    loopBreakerPrompt := id
    ct := String.length }

/-- C8 scenario environment: the model streams text plus one complete
`git_status` tool call (with a `TOOL_CALL_START` stream event before it). -/
def envC8 : AgentEnv :=
  { stream := fun _ =>
      [StreamEvent.textDelta "Looking into it", StreamEvent.toolCallStart,
       StreamEvent.toolCallComplete
         { call_id := "c1", name := "git_status", arguments := "{}" },
       StreamEvent.messageComplete {}]
    invoke := fun _ _ => .ok { success := true, output := "clean" }
    compress := fun _ => (none, {})
    checkLoop := fun _ => none
    parseArgs := id
    loopBreakerPrompt := id
    ct := String.length }

/-- C4 scenario environment: every registry dispatch raises
`RuntimeError("boom")`. -/
def envErr : AgentEnv :=
  { stream := fun _ =>
      [StreamEvent.toolCallComplete
        { call_id := "c1", name := "t", arguments := "{}" }]
    invoke := fun _ _ => .error "boom"
    compress := fun _ => (none, {})
    checkLoop := fun _ => none
    parseArgs := id
    loopBreakerPrompt := id
    ct := String.length }

/-- The initial loop state: a fresh context manager, no events. -/
def st0 : AgentSt := { cm := {} }

end OssDev

namespace OssDev

open ContextManager

/-! ## Theorems -/

/-- C7: for every summary string `S`, after `replace_with_summary(S)` the
mutable transcript contains exactly three messages — a user message
embedding `S`, an assistant acknowledgment, and a user message instructing
continuation — and the per-message token totals of the new transcript are
exactly those of the three synthetic messages, independent of the replaced
transcript (old totals are discarded, not double-counted). -/
theorem replace_with_summary_resets_transcript (ct : String → Nat)
    (s : ContextManager) (summary : String) :
    (s.replace_with_summary ct summary).messages =
      [{ role := "user", content := continuationContent summary,
         token_count := some (ct (continuationContent summary)) },
       { role := "assistant", content := ackContent,
         token_count := some (ct ackContent) },
       { role := "user", content := continueContent,
         token_count := some (ct continueContent) }] ∧
    (s.replace_with_summary ct summary).messages.length = 3 ∧
    ((s.replace_with_summary ct summary).messages.map
        (fun m => m.token_count.getD 0)).sum =
      ct (continuationContent summary) + ct ackContent + ct continueContent := by
  refine ⟨rfl, rfl, ?_⟩
  simp [ContextManager.replace_with_summary]
  ring

/-- C6: `prune_tool_outputs()` prunes nothing when the transcript has fewer
than two user messages; with the default thresholds (protect 40000, minimum
20000) a transcript with 15000 tool tokens beyond the protected window is
left untouched (returns 0), while one with 25000 tokens beyond is pruned
(returns 2 and clears exactly those two old tool results). -/
theorem prune_tool_outputs_policy :
    (∀ (ct : String → Nat) (s : ContextManager), userCount s < 2 →
      s.prune_tool_outputs ct = (s, 0)) ∧
    pruneScenarioA.prune_tool_outputs ct0 = (pruneScenarioA, 0) ∧
    (pruneScenarioB.prune_tool_outputs ct0).2 = 2 ∧
    (pruneScenarioB.prune_tool_outputs ct0).1.messages =
      [userMsg "q1", pruneMsg ct0 (toolMsg 15000 "t3"),
       pruneMsg ct0 (toolMsg 10000 "t2"), toolMsg 35000 "t1", userMsg "q2"] := by
  refine ⟨fun ct s h => ?_, by decide, by decide, by decide⟩
  unfold ContextManager.prune_tool_outputs
  rw [if_pos h]

/-- Witness for C6: the first-conjunct hypothesis discharged at a fresh
(empty) context manager. -/
theorem prune_tool_outputs_policy_witness :
    userCount ({} : ContextManager) < 2 ∧
    ({} : ContextManager).prune_tool_outputs ct0 = ({}, 0) :=
  ⟨by decide, prune_tool_outputs_policy.1 ct0 {} (by decide)⟩

/-- Helper: `foundIds` unfolded one message at a time. -/
theorem foundIds_cons (m : MessageItem) (rest : List MessageItem) :
    foundIds (m :: rest) =
      if m.role = "tool" then
        (match m.tool_call_id with
          | some id => if id = "" then foundIds rest else id :: foundIds rest
          | none => foundIds rest)
      else [] := by
  unfold ContextManager.foundIds
  by_cases h : m.role = "tool"
  · rw [if_pos h]
    rw [List.takeWhile_cons]
    simp only [h, decide_eq_true_eq, if_pos]
    cases hid : m.tool_call_id with
    | none => simp [List.filterMap_cons, hid]
    | some id =>
        by_cases hz : id = "" <;>
          simp [List.filterMap_cons, hid, hz, List.filter_cons]
  · rw [if_neg h]
    rw [List.takeWhile_cons]
    simp [h]

/-- Helper: the validator's synthesized items are tool messages, so scanning
past them reaches the block behind; their non-empty ids are all found. -/
theorem foundIds_missing_append (ct : String → Nat) (ids : List String)
    (X : List MessageItem) :
    foundIds (ids.map (missingItem ct) ++ X) =
      ids.filter (fun id => id ≠ "") ++ foundIds X := by
  induction ids with
  | nil => rfl
  | cons a rest ih =>
    simp only [List.map_cons, List.cons_append, foundIds_cons, missingItem]
    by_cases hz : a = "" <;> simp [hz, ih, List.filter_cons]

/-- Helper: every id found before validation is still found after it (the
validator only adds tool messages in front of the scanned block and maps
every non-tool message to itself). -/
theorem foundIds_subset_validateFrom (ct : String → Nat) :
    ∀ l, foundIds l ⊆ foundIds (validateFrom ct l) := by
  intro l
  induction l with
  | nil => intro x hx; simp [ContextManager.foundIds] at hx
  | cons m rest ih =>
    intro x hx
    by_cases ht : m.role = "tool"
    · have hb : ¬ (m.role = "assistant" ∧ m.tool_calls ≠ []) := by
        rw [ht]; rintro ⟨ha, -⟩; exact absurd ha (by decide)
      rw [foundIds_cons, if_pos ht] at hx
      rw [show validateFrom ct (m :: rest) = m :: validateFrom ct rest from by
        rw [validateFrom, if_neg hb]]
      rw [foundIds_cons, if_pos ht]
      revert hx
      cases m.tool_call_id with
      | none => exact fun hx => ih hx
      | some id =>
          intro hx
          have hx' : x ∈ if id = "" then foundIds rest
              else id :: foundIds rest := hx
          show x ∈ if id = "" then foundIds (validateFrom ct rest)
            else id :: foundIds (validateFrom ct rest)
          by_cases hz : id = ""
          · rw [if_pos hz] at hx' ⊢
            exact ih hx'
          · rw [if_neg hz] at hx' ⊢
            rcases List.mem_cons.mp hx' with h1 | h1
            · exact h1 ▸ List.mem_cons_self _ _
            · exact List.mem_cons_of_mem _ (ih h1)
    · rw [foundIds_cons, if_neg ht] at hx
      exact absurd hx (List.not_mem_nil x)

/-- Helper: the one-step unfolding of the validator on a non-empty list. -/
theorem validateFrom_cons (ct : String → Nat) (m : MessageItem)
    (rest : List MessageItem) :
    validateFrom ct (m :: rest) =
      if m.role = "assistant" ∧ m.tool_calls ≠ [] then
        m :: (((collectIds m.tool_calls).filter
          (fun id => id ∉ foundIds rest)).map (missingItem ct) ++
          validateFrom ct rest)
      else m :: validateFrom ct rest := rfl

/-- Helper: a block of synthesized tool messages in front of a covered list
keeps it covered (their head conditions are vacuous: they are tool-role). -/
theorem itemAtLeastOne_missing_append (ct : String → Nat) (ids : List String)
    (X : List MessageItem) (h : ItemAtLeastOne X) :
    ItemAtLeastOne (ids.map (missingItem ct) ++ X) := by
  induction ids with
  | nil => exact h
  | cons a rest ih =>
      exact ⟨fun ha => absurd ha (by simp [ContextManager.missingItem]), ih⟩

/-- Helper: the validation pass establishes the at-least-one coverage on the
internal message list, for every input list. -/
theorem validateFrom_itemAtLeastOne (ct : String → Nat) :
    ∀ l, ItemAtLeastOne (validateFrom ct l) := by
  intro l
  induction l with
  | nil => exact trivial
  | cons m rest ih =>
    by_cases hb : m.role = "assistant" ∧ m.tool_calls ≠ []
    · rw [validateFrom_cons, if_pos hb]
      refine ⟨fun _ id hid hz => ?_, itemAtLeastOne_missing_append ct _ _ ih⟩
      rw [foundIds_missing_append]
      by_cases hf : id ∈ foundIds rest
      · exact List.mem_append_right _ (foundIds_subset_validateFrom ct rest hf)
      · refine List.mem_append_left _ ?_
        refine List.mem_filter.mpr ⟨List.mem_filter.mpr ⟨hid, ?_⟩, ?_⟩
        · simpa using hf
        · simpa using hz
    · rw [validateFrom_cons, if_neg hb]
      refine ⟨fun ha id hid _ => ?_, ih⟩
      rcases not_and_or.mp hb with h1 | h1
      · exact absurd ha h1
      · rw [not_ne_iff.mp h1] at hid
        simp [ContextManager.collectIds] at hid

/-- Helper: `to_dict` preserves the role. -/
theorem to_dict_role (m : MessageItem) :
    (MessageItem.to_dict m).role = m.role := rfl

/-- Helper: `to_dict` keeps the `tool_calls` list verbatim. -/
theorem to_dict_tool_calls (m : MessageItem) :
    (MessageItem.to_dict m).tool_calls = m.tool_calls := rfl

/-- Helper: coverage transfers from the internal list to the wire list
(`to_dict` keeps roles, keeps `tool_calls`, and keeps a truthy
`tool_call_id`). -/
theorem wireAtLeastOne_map :
    ∀ l, ItemAtLeastOne l → WireAtLeastOne (l.map MessageItem.to_dict) := by
  intro l
  induction l with
  | nil => intro _; exact trivial
  | cons m rest ih =>
    intro h
    obtain ⟨h1, h2⟩ := h
    rw [List.map_cons]
    refine ⟨fun ha id hid hz => ?_, ih h2⟩
    have h3 : id ∈ foundIds rest :=
      h1 (by rwa [to_dict_role] at ha) id
        (by rwa [to_dict_tool_calls] at hid) hz
    unfold ContextManager.foundIds at h3
    obtain ⟨h5, -⟩ := List.mem_filter.mp h3
    obtain ⟨t, ht, htid⟩ := List.mem_filterMap.mp h5
    refine ⟨t.to_dict, ?_, ?_⟩
    · rw [List.takeWhile_map]
      refine List.mem_map_of_mem _ ?_
      exact ht
    · simp [MessageItem.to_dict, htid, hz]

/-- C1 counterexample: the transcript built by `add_assistant_message` with
one tool call `a` followed by two `add_tool_result("a", ...)` calls makes
`get_messages()` return the assistant message followed by two tool messages
for the same call id — not exactly one per call id. -/
theorem exactly_one_counterexample :
    wireExactlyOne (dupScenario.get_messages ct0).2 = false := by decide

/-- C1 amended: for every context-manager state (hence for every transcript
produced by any sequence of add calls), `get_messages()` never returns an
assistant message with `tool_calls` that is not immediately followed
(contiguously, before any message of any other role) by at least one
tool-role message per non-empty call id of that assistant message.
("Exactly one" fails: duplicate manually-added results are kept.) -/
theorem get_messages_tool_block_coverage (ct : String → Nat)
    (s : ContextManager) : WireAtLeastOne (s.get_messages ct).2 := by
  have hmain := wireAtLeastOne_map _ (validateFrom_itemAtLeastOne ct s.messages)
  show WireAtLeastOne ((if s.system_prompt = "" then ([] : List WireMessage)
      else [{ role := "system", content := s.system_prompt }]) ++
      (validateFrom ct s.messages).map MessageItem.to_dict)
  by_cases hsp : s.system_prompt = ""
  · rw [if_pos hsp, List.nil_append]
    exact hmain
  · rw [if_neg hsp, List.singleton_append]
    refine ⟨fun ha => absurd ha ?_, hmain⟩
    rw [show ({ role := "system", content := s.system_prompt } :
      WireMessage).role = "system" from rfl]
    decide

/-- Helper: the validation pass only inserts — the input transcript is a
sublist of the output. -/
theorem sublist_validateFrom (ct : String → Nat) :
    ∀ l : List MessageItem, l.Sublist (validateFrom ct l) := by
  intro l
  induction l with
  | nil => exact List.Sublist.refl []
  | cons m rest ih =>
    by_cases hb : m.role = "assistant" ∧ m.tool_calls ≠ []
    · rw [validateFrom_cons, if_pos hb]
      exact List.Sublist.cons₂ m (ih.trans (List.sublist_append_right _ _))
    · rw [validateFrom_cons, if_neg hb]
      exact List.Sublist.cons₂ m ih

/-- Helper: every non-tool message of the validated list was already in the
input — the pass inserts tool-role messages only. -/
theorem validateFrom_new_are_tools (ct : String → Nat) :
    ∀ l, ∀ m ∈ validateFrom ct l, m.role ≠ "tool" → m ∈ l := by
  intro l
  induction l with
  | nil => intro m hm; exact absurd hm (List.not_mem_nil m)
  | cons x rest ih =>
    intro m hm hrole
    by_cases hb : x.role = "assistant" ∧ x.tool_calls ≠ []
    · rw [validateFrom_cons, if_pos hb] at hm
      rcases List.mem_cons.mp hm with h1 | h1
      · exact h1 ▸ List.mem_cons_self _ _
      · rcases List.mem_append.mp h1 with h2 | h2
        · obtain ⟨id, -, hmi⟩ := List.mem_map.mp h2
          exact absurd (by rw [← hmi]; rfl) hrole
        · exact List.mem_cons_of_mem _ (ih m h2 hrole)
    · rw [validateFrom_cons, if_neg hb] at hm
      rcases List.mem_cons.mp hm with h1 | h1
      · exact h1 ▸ List.mem_cons_self _ _
      · exact List.mem_cons_of_mem _ (ih m h1 hrole)

/-- Helper: the validator walks straight over a block of synthesized tool
messages (tool-role, hence never the assistant branch). -/
theorem validateFrom_missing_append (ct : String → Nat) (ids : List String)
    (X : List MessageItem) :
    validateFrom ct (ids.map (missingItem ct) ++ X) =
      ids.map (missingItem ct) ++ validateFrom ct X := by
  induction ids with
  | nil => rfl
  | cons a rest ih =>
    have hb : ¬ ((missingItem ct a).role = "assistant" ∧
        (missingItem ct a).tool_calls ≠ []) := by
      simp [ContextManager.missingItem]
    simp only [List.map_cons, List.cons_append]
    rw [validateFrom_cons, if_neg hb, ih]

/-- Helper: with every tool-call id non-empty, a second validation pass
finds every id already covered and inserts nothing. -/
theorem validateFrom_idem (ct : String → Nat) :
    ∀ l, (∀ m ∈ l, ∀ id ∈ collectIds m.tool_calls, id ≠ "") →
      validateFrom ct (validateFrom ct l) = validateFrom ct l := by
  intro l
  induction l with
  | nil => intro _; rfl
  | cons m rest ih =>
    intro hids
    have hrest : ∀ x ∈ rest, ∀ id ∈ collectIds x.tool_calls, id ≠ "" :=
      fun x hx => hids x (List.mem_cons_of_mem _ hx)
    by_cases hb : m.role = "assistant" ∧ m.tool_calls ≠ []
    · rw [validateFrom_cons ct m rest, if_pos hb]
      rw [validateFrom_cons, if_pos hb]
      have hm' : (collectIds m.tool_calls).filter
          (fun id => id ∉ foundIds
            (((collectIds m.tool_calls).filter
              (fun id => id ∉ foundIds rest)).map (missingItem ct) ++
              validateFrom ct rest)) = [] := by
        rw [List.filter_eq_nil_iff]
        intro id hid
        have hz : id ≠ "" := hids m (List.mem_cons_self _ _) id hid
        simp only [decide_eq_true_eq, not_not]
        rw [foundIds_missing_append]
        by_cases hf : id ∈ foundIds rest
        · exact List.mem_append_right _ (foundIds_subset_validateFrom ct rest hf)
        · refine List.mem_append_left _ ?_
          refine List.mem_filter.mpr ⟨List.mem_filter.mpr ⟨hid, ?_⟩, ?_⟩
          · simpa using hf
          · simpa using hz
      rw [hm']
      rw [List.map_nil, List.nil_append]
      rw [validateFrom_missing_append, ih hrest]
    · rw [validateFrom_cons ct m rest, if_neg hb]
      rw [validateFrom_cons, if_neg hb, ih hrest]

/-- C10 counterexample: with an assistant tool call whose id is the empty
string, the truthiness check on found result ids defeats the validator's
bookkeeping, and a second `get_messages()` call with no mutation in between
inserts another synthesized result — the two calls return different lists. -/
theorem validation_not_idempotent_counterexample :
    ((emptyIdScenario.get_messages ct0).1.get_messages ct0).2 ≠
      (emptyIdScenario.get_messages ct0).2 := by decide

/-- C10 amended: the validation pass inside `get_messages()` only ever
inserts tool-role messages — the pre-existing messages persist unchanged,
in order, as a sublist, and every non-tool message of the output was
already present — and, provided every assistant tool-call id in the
transcript is a non-empty string, it reaches a fixed point in one pass:
calling `get_messages()` twice in succession with no mutations in between
returns equal lists, the second call inserting nothing. (Without the
non-empty-id proviso the fixed point fails, see the counterexample.) -/
theorem validation_insertion_only_and_idempotent (ct : String → Nat)
    (s : ContextManager) :
    s.messages.Sublist (validateFrom ct s.messages) ∧
    (∀ m ∈ validateFrom ct s.messages, m.role ≠ "tool" → m ∈ s.messages) ∧
    ((∀ m ∈ s.messages, ∀ id ∈ collectIds m.tool_calls, id ≠ "") →
      ((s.get_messages ct).1.get_messages ct).2 = (s.get_messages ct).2 ∧
      ((s.get_messages ct).1.get_messages ct).1 = (s.get_messages ct).1) := by
  refine ⟨sublist_validateFrom ct s.messages,
    validateFrom_new_are_tools ct s.messages, fun hids => ?_⟩
  have hval := validateFrom_idem ct s.messages hids
  constructor
  · show (if s.system_prompt = "" then ([] : List WireMessage)
        else [{ role := "system", content := s.system_prompt }]) ++
        (validateFrom ct (validateFrom ct s.messages)).map MessageItem.to_dict =
      (if s.system_prompt = "" then ([] : List WireMessage)
        else [{ role := "system", content := s.system_prompt }]) ++
        (validateFrom ct s.messages).map MessageItem.to_dict
    rw [hval]
  · show ({ s with messages := validateFrom ct (validateFrom ct s.messages) } :
        ContextManager) = { s with messages := validateFrom ct s.messages }
    rw [hval]

/-- Witness for C10: the fixed-point conjunct discharged at the concrete
`[a, b, c]` transcript, whose ids are all non-empty. -/
theorem validation_insertion_only_and_idempotent_witness :
    (∀ m ∈ gapScenario.messages, ∀ id ∈ collectIds m.tool_calls, id ≠ "") ∧
    ((gapScenario.get_messages ct0).1.get_messages ct0).2 =
      (gapScenario.get_messages ct0).2 :=
  ⟨by decide,
   ((validation_insertion_only_and_idempotent ct0 gapScenario).2.2
     (by decide)).1⟩

/-- C2 counterexample: in the `[a, b, c]` scenario with results only for
`a` and `c` and a later user message, the claim positions the synthesized
error result for `b` immediately after the existing tool-result block,
i.e. at index 3 of the returned list (after the results for `a` and `c`);
the code does not put it there. -/
theorem gap_fill_position_counterexample :
    ¬ ((gapScenario.get_messages ct0).2[3]? =
        some { role := "tool", tool_call_id := some "b",
               content := missingContent }) := by decide

/-- C2 amended: the synthesized error result for `b` (content "Tool call
was not processed") is inserted immediately after the assistant message
itself — before the existing results for `a` and `c`, and in particular
before the next user message. -/
theorem gap_fill_position :
    (gapScenario.get_messages ct0).2 =
      [{ role := "assistant",
         tool_calls := [{ id := some "a", fname := "t1", arguments := "{}" },
                        { id := some "b", fname := "t2", arguments := "{}" },
                        { id := some "c", fname := "t3", arguments := "{}" }],
         content := "" },
       { role := "tool", tool_call_id := some "b", content := missingContent },
       { role := "tool", tool_call_id := some "a", content := "ra" },
       { role := "tool", tool_call_id := some "c", content := "rc" },
       { role := "user", content := "next" }] := by decide

/-- Helper: `prune_tool_outputs` is the identity when fewer than two user
messages exist. -/
theorem prune_small (ct : String → Nat) (s : ContextManager)
    (h : userCount s < 2) : s.prune_tool_outputs ct = (s, 0) := by
  unfold ContextManager.prune_tool_outputs
  rw [if_pos h]

/-- Helper: `prune_tool_outputs` is the identity when the scan reclaims
less than the minimum. -/
theorem prune_nocommit (ct : String → Nat) (s : ContextManager)
    (h : ¬ userCount s < 2)
    (h2 : (pruneScanRev ct s.messages.reverse 0).1 < PRUNE_MINIMUM_TOKENS) :
    s.prune_tool_outputs ct = (s, 0) := by
  unfold ContextManager.prune_tool_outputs
  rw [if_neg h]
  simp only []
  rw [if_pos h2]

/-- Helper: the committed form of `prune_tool_outputs`. -/
theorem prune_commit (ct : String → Nat) (s : ContextManager)
    (h : ¬ userCount s < 2)
    (h2 : ¬ (pruneScanRev ct s.messages.reverse 0).1 < PRUNE_MINIMUM_TOKENS) :
    s.prune_tool_outputs ct =
      ({ s with messages := (pruneScanRev ct s.messages.reverse 0).2.2.reverse },
       (pruneScanRev ct s.messages.reverse 0).2.1) := by
  unfold ContextManager.prune_tool_outputs
  rw [if_neg h]
  simp only []
  rw [if_neg h2]

/-- Helper: pruning a message changes neither the fields `prunable` reads
nor its role. -/
theorem prunable_pruneMsg (ct : String → Nat) (m : MessageItem) :
    prunable (pruneMsg ct m) = prunable m := rfl

/-- Helper: a pruned message carries its timestamp. -/
theorem pruned_at_pruneMsg (ct : String → Nat) (m : MessageItem) :
    (pruneMsg ct m).pruned_at = true := rfl

/-- Helper: the prune scan preserves the roles of the transcript. -/
theorem pruneScanRev_roles (ct : String → Nat) (l : List MessageItem) :
    ∀ total, ((pruneScanRev ct l total).2.2).map (fun m => m.role) =
      l.map (fun m => m.role) := by
  induction l with
  | nil => intro total; rfl
  | cons m rest ih =>
    intro total
    by_cases hp : prunable m = true
    · by_cases hpr : m.pruned_at = true
      · simp [pruneScanRev, hp, hpr]
      · by_cases hgt : total + effTokens ct m > PRUNE_PROTECT_TOKENS
        · simp [pruneScanRev, hp, hpr, hgt, ih, pruneMsg]
        · simp [pruneScanRev, hp, hpr, hgt, ih]
    · simp [pruneScanRev, hp, ih]

/-- Helper: rescanning the output of the prune scan marks nothing: the
unpruned recent messages accumulate the same totals (never exceeding the
protect threshold before the scan reaches a pruned message and breaks). -/
theorem pruneScanRev_idem (ct : String → Nat) (l : List MessageItem) :
    ∀ total, pruneScanRev ct (pruneScanRev ct l total).2.2 total =
      (0, 0, (pruneScanRev ct l total).2.2) := by
  induction l with
  | nil => intro total; rfl
  | cons m rest ih =>
    intro total
    by_cases hp : prunable m = true
    · by_cases hpr : m.pruned_at = true
      · simp [pruneScanRev, hp, hpr]
      · by_cases hgt : total + effTokens ct m > PRUNE_PROTECT_TOKENS
        · simp [pruneScanRev, hp, hpr, hgt, prunable_pruneMsg,
                pruned_at_pruneMsg]
        · simp [pruneScanRev, hp, hpr, hgt, ih]
    · simp [pruneScanRev, hp, ih]

/-- Helper: equal role lists give equal user-message counts. -/
theorem filterRole_length {l₁ l₂ : List MessageItem}
    (h : l₁.map (fun m => m.role) = l₂.map (fun m => m.role)) :
    (l₁.filter (fun m => m.role = "user")).length =
      (l₂.filter (fun m => m.role = "user")).length := by
  have h2 := congrArg (List.countP (fun r : String => r = "user")) h
  rw [List.countP_map, List.countP_map] at h2
  simpa [Function.comp, List.countP_eq_length_filter] using h2

/-- C5: calling `prune_tool_outputs()` twice in succession without adding
messages in between yields the same transcript as calling it once — the
second call returns 0 and changes nothing, because the rescan stops at the
first already-pruned tool message before accumulating past the protect
threshold. -/
theorem prune_tool_outputs_idempotent (ct : String → Nat)
    (s : ContextManager) :
    ((s.prune_tool_outputs ct).1).prune_tool_outputs ct =
      ((s.prune_tool_outputs ct).1, 0) := by
  by_cases h1 : userCount s < 2
  · have e1 := prune_small ct s h1
    rw [e1]
    simpa using e1
  · by_cases h2 :
        (pruneScanRev ct s.messages.reverse 0).1 < PRUNE_MINIMUM_TOKENS
    · have e1 := prune_nocommit ct s h1 h2
      rw [e1]
      simpa using e1
    · have e1 := prune_commit ct s h1 h2
      rw [e1]
      simp only []
      set R := (pruneScanRev ct s.messages.reverse 0).2.2 with hRdef
      have hroles : R.reverse.map (fun m => m.role) =
          s.messages.map (fun m => m.role) := by
        rw [List.map_reverse, hRdef, pruneScanRev_roles ct s.messages.reverse 0,
            List.map_reverse, List.reverse_reverse]
      have hwc : ¬ userCount { s with messages := R.reverse } < 2 := by
        unfold ContextManager.userCount at h1 ⊢
        simp only []
        rw [filterRole_length hroles]
        exact h1
      have hscan : pruneScanRev ct
          (({ s with messages := R.reverse } : ContextManager).messages.reverse)
          0 = (0, 0, R) := by
        show pruneScanRev ct R.reverse.reverse 0 = (0, 0, R)
        rw [List.reverse_reverse, hRdef]
        exact pruneScanRev_idem ct s.messages.reverse 0
      exact prune_nocommit ct { s with messages := R.reverse } hwc
        (by rw [hscan]; norm_num [ContextManager.PRUNE_MINIMUM_TOKENS])

/-- C9: a tool call whose name is empty gets a synthesized error tool
result keyed by its call id, with no consumer event, no loop-detector
record and no registry invocation, and dispatch proceeds with the
remaining calls of the turn exactly as if the unnamed call were absent. -/
theorem unnamed_call_synthesized (env : AgentEnv) (tc : ToolCall)
    (rest : List ToolCall) (h : tc.name = "") :
    dispatchCalls env (tc :: rest) =
      { events := (dispatchCalls env rest).events
        results := { tool_call_id := tc.call_id, content := missingNameContent,
                     is_error := true } :: (dispatchCalls env rest).results
        actions := (dispatchCalls env rest).actions
        invoked := (dispatchCalls env rest).invoked } := by
  simp [dispatchCalls, h]

/-- Witness for C9: the unnamed-call theorem at a concrete call. -/
theorem unnamed_call_synthesized_witness :
    ToolCall.name { call_id := "c9", name := "", arguments := "" } = "" ∧
    dispatchCalls envW [{ call_id := "c9", name := "", arguments := "" }] =
      { events := [],
        results := [{ tool_call_id := "c9", content := missingNameContent,
                      is_error := true }],
        actions := [], invoked := [] } :=
  ⟨rfl, by
    rw [unnamed_call_synthesized envW
      { call_id := "c9", name := "", arguments := "" } [] rfl]
    rfl⟩

/-- Helper: a turn always increments the session turn counter by exactly
one, and it is the turn that hits the early return exactly when its stream
produced no tool calls. -/
theorem runTurn_turnCount_and_done (env : AgentEnv) (k : Nat) (st : AgentSt) :
    (runTurn env k st).1.turnCount = st.turnCount + 1 ∧
    ((runTurn env k st).2 = true ↔ extractToolCalls (env.stream k) = []) := by
  unfold runTurn
  by_cases h : (streamPhase (env.stream k)).tool_calls = []
  · simp [h, extractToolCalls]
  · simp [h, extractToolCalls]

/-- Helper: when every remaining turn requests at least one tool call, the
loop runs through its whole budget and falls out with the max-turns error
event as the last event yielded. -/
theorem loopAux_exhausts (env : AgentEnv) (M : Nat) :
    ∀ (r k : Nat) (st : AgentSt),
      (∀ j, k ≤ j → j < k + r → extractToolCalls (env.stream j) ≠ []) →
      (loopAux env M r k st).turnCount = st.turnCount + r ∧
      (loopAux env M r k st).events.getLast? =
        some (AgentEvent.agentError (maxTurnsMessage M)) := by
  intro r
  induction r with
  | zero =>
    intro k st _
    exact ⟨rfl, List.getLast?_concat _⟩
  | succ r ih =>
    intro k st h
    have hk : extractToolCalls (env.stream k) ≠ [] := h k (le_refl k) (by omega)
    have hr := runTurn_turnCount_and_done env k st
    have hdone : (runTurn env k st).2 = false := by
      rcases Bool.eq_false_or_eq_true (runTurn env k st).2 with hb | hb
      · exact absurd (hr.2.mp hb) hk
      · exact hb
    have hstep : loopAux env M (r + 1) k st =
        loopAux env M r (k + 1) (runTurn env k st).1 := by
      simp [loopAux, hdone]
    rw [hstep]
    have ih' := ih (k + 1) (runTurn env k st).1
      (fun j hj1 hj2 => h j (by omega) (by omega))
    refine ⟨?_, ih'.2⟩
    rw [ih'.1, hr.1]
    omega

/-- C3: for every `max_turns = N`, if on every turn the stream yields at
least one tool call, the agent loop performs exactly `N` turns (the session
turn counter advances by exactly `N`, never `N + 1`) and terminates by
yielding the agent-error event "Maximum turns (N) reached" as its final
event — a typed event, not a raised exception (the embedding is total). -/
theorem max_turns_exhaustion (env : AgentEnv) (N : Nat) (st : AgentSt)
    (h : ∀ k, k < N → extractToolCalls (env.stream k) ≠ []) :
    (agenticLoop env N st).turnCount = st.turnCount + N ∧
    (agenticLoop env N st).events.getLast? =
      some (AgentEvent.agentError (maxTurnsMessage N)) :=
  loopAux_exhausts env N N 0 st (fun j _ h2 => h j (by omega))

/-- Witness for C3: two turns of the always-tool-calling environment. -/
theorem max_turns_exhaustion_witness :
    (∀ k, k < 2 → extractToolCalls (envW.stream k) ≠ []) ∧
    ((agenticLoop envW 2 st0).turnCount = st0.turnCount + 2 ∧
     (agenticLoop envW 2 st0).events.getLast? =
       some (AgentEvent.agentError (maxTurnsMessage 2))) :=
  ⟨by decide, max_turns_exhaustion envW 2 st0 (by decide)⟩

/-- C4: a tool call whose registry dispatch raises an exception `e` is
converted into an error `ToolResult` whose model-facing content is
"Tool execution failed: " followed by the exception text, the resulting
tool message carries `is_error = true`, the tool-call-complete event still
fires with that error result, and the turn does not early-return (the loop
proceeds to the next turn); the embedding of dispatch is a total function —
no exception reaches the caller. -/
theorem tool_exception_converted (env : AgentEnv) (tc : ToolCall)
    (rest : List ToolCall) (e : String) (hname : tc.name ≠ "")
    (hinv : env.invoke tc.name (env.parseArgs tc.arguments) = .error e) :
    (dispatchCalls env (tc :: rest)).results.head? =
      some { tool_call_id := tc.call_id,
             content := "Tool execution failed: " ++ e,
             is_error := true } ∧
    AgentEvent.toolCallComplete tc.call_id tc.name
        (ToolResult.error_result ("Tool execution failed: " ++ e) "") ∈
      (dispatchCalls env (tc :: rest)).events ∧
    (∀ (k : Nat) (st : AgentSt), extractToolCalls (env.stream k) ≠ [] →
      (runTurn env k st).2 = false) := by
  have hres : dispatchResult env tc =
      ToolResult.error_result ("Tool execution failed: " ++ e) "" := by
    unfold dispatchResult
    rw [hinv]
  refine ⟨?_, ?_, ?_⟩
  · simp [dispatchCalls, hname, hres, ToolResult.to_model_output,
          ToolResult.error_result]
  · simp [dispatchCalls, hname, hres]
  · intro k st hk
    rcases Bool.eq_false_or_eq_true (runTurn env k st).2 with hb | hb
    · exact absurd ((runTurn_turnCount_and_done env k st).2.mp hb) hk
    · exact hb

/-- Witness for C4: the `RuntimeError("boom")` environment. -/
theorem tool_exception_converted_witness :
    (ToolCall.name { call_id := "c1", name := "t", arguments := "{}" } ≠ "" ∧
     envErr.invoke "t" (envErr.parseArgs "{}") = .error "boom") ∧
    (dispatchCalls envErr
        [{ call_id := "c1", name := "t", arguments := "{}" }]).results.head? =
      some { tool_call_id := "c1",
             content := "Tool execution failed: " ++ "boom",
             is_error := true } :=
  ⟨⟨by decide, rfl⟩,
   (tool_exception_converted envErr
     { call_id := "c1", name := "t", arguments := "{}" } [] "boom"
     (by decide) rfl).1⟩

/-- Helper: the stream-consumption fold never adds a tool-call-start event
to the consumer stream. -/
theorem streamStep_foldl_no_start (evts : List StreamEvent) :
    ∀ acc : StreamAcc,
      (∀ ev ∈ acc.events, ∀ id name args,
        ev ≠ AgentEvent.toolCallStart id name args) →
      ∀ ev ∈ (evts.foldl streamStep acc).events, ∀ id name args,
        ev ≠ AgentEvent.toolCallStart id name args := by
  induction evts with
  | nil => intro acc h; exact h
  | cons ev rest ih =>
    intro acc h
    refine ih _ (fun x hx => ?_)
    cases ev with
    | textDelta c =>
        simp only [streamStep] at hx
        rcases List.mem_append.mp hx with h1 | h1
        · exact h x h1
        · rw [List.mem_singleton.mp h1]
          exact fun id name args hcon => AgentEvent.noConfusion hcon
    | toolCallStart => exact h x hx
    | toolCallComplete tc => exact h x hx
    | error msg =>
        simp only [streamStep] at hx
        rcases List.mem_append.mp hx with h1 | h1
        · exact h x h1
        · rw [List.mem_singleton.mp h1]
          exact fun id name args hcon => AgentEvent.noConfusion hcon
    | messageComplete u => exact h x hx

/-- C8 counterexample: in the normal-turn scenario (text plus one
`git_status` call) the consumer-facing event stream of the turn DOES
contain a tool-call-start event — the loop yields one at dispatch time
(line 147 of agent.py), after streaming has completed. -/
theorem tool_call_start_forwarded_counterexample :
    AgentEvent.toolCallStart "c1" "git_status" "{}" ∈
      (runTurn envC8 0 st0).1.events := by decide

/-- C8 amended: during the streaming phase no tool-call-start event is
forwarded (partially streamed arguments are swallowed); tool-call-start is
emitted only at dispatch time with fully parsed arguments, and every
dispatched (named) call contributes both its tool-call-start and its
tool-call-complete event to the consumer stream. -/
theorem tool_call_event_policy (env : AgentEnv) :
    (∀ evts, ∀ ev ∈ (streamPhase evts).events, ∀ id name args,
       ev ≠ AgentEvent.toolCallStart id name args) ∧
    (∀ calls, ∀ tc ∈ calls, tc.name ≠ "" →
       AgentEvent.toolCallStart tc.call_id tc.name
           (env.parseArgs tc.arguments) ∈ (dispatchCalls env calls).events ∧
       AgentEvent.toolCallComplete tc.call_id tc.name (dispatchResult env tc) ∈
         (dispatchCalls env calls).events) := by
  constructor
  · intro evts
    exact streamStep_foldl_no_start evts {}
      (fun x hx => absurd hx (List.not_mem_nil x))
  · intro calls
    induction calls with
    | nil => intro tc h; exact absurd h (List.not_mem_nil tc)
    | cons c cs ih =>
      intro tc htc hname
      rcases List.mem_cons.mp htc with heq | hmem
      · subst heq
        have hev : (dispatchCalls env (tc :: cs)).events =
            AgentEvent.toolCallStart tc.call_id tc.name
              (env.parseArgs tc.arguments) ::
            AgentEvent.toolCallComplete tc.call_id tc.name
              (dispatchResult env tc) ::
            (dispatchCalls env cs).events := by
          simp [dispatchCalls, hname]
        rw [hev]
        exact ⟨List.mem_cons_self _ _,
               List.mem_cons_of_mem _ (List.mem_cons_self _ _)⟩
      · by_cases hc : c.name = ""
        · have hev : (dispatchCalls env (c :: cs)).events =
              (dispatchCalls env cs).events := by
            simp [dispatchCalls, hc]
          rw [hev]
          exact ih tc hmem hname
        · have hev : (dispatchCalls env (c :: cs)).events =
              AgentEvent.toolCallStart c.call_id c.name
                (env.parseArgs c.arguments) ::
              AgentEvent.toolCallComplete c.call_id c.name
                (dispatchResult env c) ::
              (dispatchCalls env cs).events := by
            simp [dispatchCalls, hc]
          rw [hev]
          exact ⟨List.mem_cons_of_mem _
                   (List.mem_cons_of_mem _ (ih tc hmem hname).1),
                 List.mem_cons_of_mem _
                   (List.mem_cons_of_mem _ (ih tc hmem hname).2)⟩

/-- Witness for C8: the dispatch conjunct at the concrete `git_status`
call of the normal-turn environment. -/
theorem tool_call_event_policy_witness :
    (({ call_id := "c1", name := "git_status", arguments := "{}" } : ToolCall) ∈
        [({ call_id := "c1", name := "git_status", arguments := "{}" } : ToolCall)] ∧
     ToolCall.name { call_id := "c1", name := "git_status", arguments := "{}" } ≠ "") ∧
    (AgentEvent.toolCallStart "c1" "git_status" "{}" ∈
       (dispatchCalls envC8
         [{ call_id := "c1", name := "git_status", arguments := "{}" }]).events ∧
     AgentEvent.toolCallComplete "c1" "git_status"
         (dispatchResult envC8
           { call_id := "c1", name := "git_status", arguments := "{}" }) ∈
       (dispatchCalls envC8
         [{ call_id := "c1", name := "git_status", arguments := "{}" }]).events) :=
  ⟨⟨by decide, by decide⟩,
   (tool_call_event_policy envC8).2
     [{ call_id := "c1", name := "git_status", arguments := "{}" }]
     { call_id := "c1", name := "git_status", arguments := "{}" }
     (by decide) (by decide)⟩

end OssDev
